import Mathlib

/-!
Shallow embedding of the hourly water-allocation policy in
`src/StudentSolution.cpp` (the entire source of this repository).

Doubles are modelled as rationals (`ℚ`); the decimal literals `0.8`, `0.3`
and `3.6` of the source are exact in `ℚ`. C++ pointers into the engine's
persistent entities are modelled as `Option` values (a null pointer is
`none`); in-place mutation of a canal becomes a function returning the
canal's new value.
-/

/-- A region as exposed by the engine: `name`, `waterLevel`, `waterNeed`,
`waterCapacity` (the fields read by the policy). -/
structure Region where
  name : String
  waterLevel : ℚ
  waterNeed : ℚ
  waterCapacity : ℚ
deriving DecidableEq, Repr

/-- A canal as seen by the policy: its `name` plus the two mutable fields the
policy drives through `setFlowRate` and `toggleOpen`. -/
structure Canal where
  name : String
  flowRate : ℚ
  isOpen : Bool
deriving DecidableEq, Repr

/-- `computeSafeSurplus` (StudentSolution.cpp lines 7-25): volume a region can
give without dropping below `max(max(0.8*need, 0.3*capacity), need)`; a null
region yields `0`. -/
def computeSafeSurplus : Option Region → ℚ
  | none => 0
  | some r =>
    let minLevelByNeed : ℚ := 0.8 * r.waterNeed
    let minLevelByCap : ℚ := 0.3 * r.waterCapacity
    let minLevel : ℚ := max minLevelByNeed minLevelByCap
    if r.waterLevel ≤ minLevel then 0
    else
      let keepLevel : ℚ := max minLevel r.waterNeed
      if r.waterLevel ≤ keepLevel then 0
      else r.waterLevel - keepLevel

/-- `computeDeficit` (lines 27-34): shortfall of level below need; a null
region yields `0`. -/
def computeDeficit : Option Region → ℚ
  | none => 0
  | some r =>
    if r.waterNeed ≤ r.waterLevel then 0
    else r.waterNeed - r.waterLevel

/-- The body applied to each canal by `closeAllCanals`:
`setFlowRate(0.0); toggleOpen(false)`. -/
def closeCanal (c : Canal) : Canal := { c with flowRate := 0, isOpen := false }

/-- `closeAllCanals` (lines 37-43): force-close every canal and zero its rate. -/
def closeAllCanals (canals : List Canal) : List Canal := canals.map closeCanal

/-- `scheduleTransfer` (lines 46-61) on a non-null canal: rate `amount / 3.6`,
clamped to `1.0`; non-positive amounts (or rates) leave the canal untouched.
The null-canal early return is handled at the call sites (`applyToCanal`). -/
def scheduleTransfer (canal : Canal) (amount : ℚ) : Canal :=
  if amount ≤ 0 then canal
  else
    let flowRate : ℚ := amount / 3.6
    let flowRate : ℚ := if 1 < flowRate then 1 else flowRate
    if flowRate ≤ 0 then canal
    else { canal with flowRate := flowRate, isOpen := true }

/-- The amount the `tryTransfer` lambda (lines 105-132) hands to
`scheduleTransfer`, or `none` when one of its guards makes it return early. -/
def tryTransferAmount (src dst : Option Region) : Option ℚ :=
  match src, dst with
  | some s, some d =>
    let need : ℚ := computeDeficit (some d)
    let surplus : ℚ := computeSafeSurplus (some s)
    if need ≤ 0 ∨ surplus ≤ 0 then none
    else
      let maxBeforeFlood : ℚ := d.waterCapacity - d.waterLevel
      if maxBeforeFlood ≤ 0 then none
      else
        let amount : ℚ := min (min need surplus) (maxBeforeFlood * 0.8)
        if amount ≤ 0 then none
        else some amount
  | _, _ => none

/-- The effect of the `tryTransfer` lambda on its (non-null) canal: either the
guards fire and the canal is untouched, or `scheduleTransfer` runs. -/
def tryTransfer (src dst : Option Region) (canal : Canal) : Canal :=
  match tryTransferAmount src dst with
  | none => canal
  | some amount => scheduleTransfer canal amount

section Resolution

/-- Substring occurrence on character lists, the semantics of
`std::string::find(pat) != npos`. -/
def hasSub (pat : List Char) : List Char → Bool
  | [] => pat.isEmpty
  | c :: rest => pat.isPrefixOf (c :: rest) || hasSub pat rest

/-- `s.find(pat) != std::string::npos` for strings. -/
def strContains (s pat : String) : Bool := hasSub pat.data s.data

/-- The four logical canal roles of the fixed topology (comments at lines
92-95): A = North→South, B = South→East, C = North→East, D = East→North. -/
inductive CanalRole
  | A
  | B
  | C
  | D
deriving DecidableEq, Repr

/-- The if/else-if chain of lines 97-102 classifying one canal by substring
match on its name (first matching key wins; no key gives `none`). -/
def canalKey (c : Canal) : Option CanalRole :=
  if strContains c.name "A" then some CanalRole.A
  else if strContains c.name "B" then some CanalRole.B
  else if strContains c.name "C" then some CanalRole.C
  else if strContains c.name "D" then some CanalRole.D
  else none

/-- The four canal-role local variables of `solveProblems` (lines 92-95). -/
structure ResolvedCanals where
  canalA : Option Canal
  canalB : Option Canal
  canalC : Option Canal
  canalD : Option Canal
deriving DecidableEq, Repr

/-- One iteration of the canal-resolution loop: assign the canal to the slot
of its key (a later canal with the same key overwrites an earlier one, as the
plain assignment in the source does). -/
def resolveStep (acc : ResolvedCanals) (c : Canal) : ResolvedCanals :=
  match canalKey c with
  | some CanalRole.A => { acc with canalA := some c }
  | some CanalRole.B => { acc with canalB := some c }
  | some CanalRole.C => { acc with canalC := some c }
  | some CanalRole.D => { acc with canalD := some c }
  | none => acc

/-- The canal-resolution loop of lines 97-102, starting from all-null slots. -/
def resolveCanals (canals : List Canal) : ResolvedCanals :=
  canals.foldl resolveStep ⟨none, none, none, none⟩

/-- The three region local variables of `solveProblems` (lines 82-84). -/
structure ResolvedRegions where
  north : Option Region
  south : Option Region
  east : Option Region
deriving DecidableEq, Repr

/-- One iteration of the region-resolution loop (lines 86-90): exact name
match, later duplicates overwrite. -/
def regionStep (acc : ResolvedRegions) (r : Region) : ResolvedRegions :=
  if r.name = "North" then { acc with north := some r }
  else if r.name = "South" then { acc with south := some r }
  else if r.name = "East" then { acc with east := some r }
  else acc

/-- The region-resolution loop of lines 86-90. -/
def resolveRegions (regions : List Region) : ResolvedRegions :=
  regions.foldl regionStep ⟨none, none, none⟩

end Resolution

section Orchestration

/-- The manager's observable state: the collections returned by `getRegions`
and `getCanals`, plus the `isSolved` flag and `hour` counter the loop polls.
Engine-owned dynamics (`nexthour`) are an abstract parameter below. -/
structure ManagerState where
  regions : List Region
  canals : List Canal
  isSolved : Bool
  hour : Nat
deriving DecidableEq, Repr

/-- The `totalWater` accumulation of lines 69-74. -/
def totalWater (regions : List Region) : ℚ :=
  regions.foldl (fun acc r => acc + r.waterLevel) 0

/-- The `totalNeed` accumulation of lines 69-74. -/
def totalNeed (regions : List Region) : ℚ :=
  regions.foldl (fun acc r => acc + r.waterNeed) 0

/-- The number of "scenario unwinnable" notices emitted by lines 76-79
(the two `std::cout` lines form one notice, printed at most once, before the
hourly loop). -/
def unwinnableNotices (regions : List Region) : Nat :=
  if totalWater regions < totalNeed regions then 1 else 0

/-- In-place mutation of the canal a resolved slot points to, replayed on the
canal list: a null slot mutates nothing (the `!canal` guard of line 107 and
line 48); otherwise the pointed-to canal (identified by its value; canal
names are unique in the engine) is replaced by `f` of it. -/
def applyToCanal (canals : List Canal) (target : Option Canal) (f : Canal → Canal) :
    List Canal :=
  match target with
  | none => canals
  | some t => canals.map fun c => if c = t then f c else c

/-- Dereference of the `north` pointer: the region currently resolved by the
name-match loop. In the source the pointer is resolved once and then
dereferenced each hour; with value semantics this is re-reading the
"North"-named entry of the current collection. -/
def northOf (regions : List Region) : Option Region := (resolveRegions regions).north

/-- Dereference of the `south` pointer. -/
def southOf (regions : List Region) : Option Region := (resolveRegions regions).south

/-- Dereference of the `east` pointer. -/
def eastOf (regions : List Region) : Option Region := (resolveRegions regions).east

/-- One `tryTransfer(src, dst, canal)` call as a state transformer: the source
and destination regions are read from the state at call time, and only the
selected canal is written. -/
def tryTransferStep (src dst : List Region → Option Region) (sel : Option Canal)
    (st : ManagerState) : ManagerState :=
  { st with canals := applyToCanal st.canals sel (tryTransfer (src st.regions) (dst st.regions)) }

/-- One hourly decision pass (lines 137-145): reset every canal, then the four
`tryTransfer` calls in source order (A: North→South, C: North→East,
B: South→East, D: East→North), each reading the then-current state. -/
def decisionPass (st0 : ManagerState) : ManagerState :=
  let st1 : ManagerState := { st0 with canals := closeAllCanals st0.canals }
  let rc : ResolvedCanals := resolveCanals st1.canals
  let st2 : ManagerState := tryTransferStep northOf southOf rc.canalA st1
  let st3 : ManagerState := tryTransferStep northOf eastOf rc.canalC st2
  let st4 : ManagerState := tryTransferStep southOf eastOf rc.canalB st3
  tryTransferStep eastOf northOf rc.canalD st4

/-- The decision pass as the spec reads it: all four transfer decisions
evaluated against the single start-of-hour snapshot of the region state. -/
def decisionPassSnapshot (st0 : ManagerState) : ManagerState :=
  let canals0 : List Canal := closeAllCanals st0.canals
  let rc : ResolvedCanals := resolveCanals canals0
  let n : Option Region := northOf st0.regions
  let s : Option Region := southOf st0.regions
  let e : Option Region := eastOf st0.regions
  let c1 : List Canal := applyToCanal canals0 rc.canalA (tryTransfer n s)
  let c2 : List Canal := applyToCanal c1 rc.canalC (tryTransfer n e)
  let c3 : List Canal := applyToCanal c2 rc.canalB (tryTransfer s e)
  { st0 with canals := applyToCanal c3 rc.canalD (tryTransfer e n) }

/-- The `while (!manager.isSolved && manager.hour != manager.SimulationMax)`
loop of lines 135-152. `next` is the engine's `nexthour`; `fuel` bounds the
number of iterations the model unrolls (the engine contract advances `hour`
by one per call, so `SimulationMax` iterations always suffice). -/
def policyLoop (next : ManagerState → ManagerState) (simMax : Nat) :
    Nat → ManagerState → ManagerState
  | 0, st => st
  | fuel + 1, st =>
    if !st.isSolved && st.hour != simMax then
      policyLoop next simMax fuel (next (decisionPass st))
    else st

/-- `solveProblems` (lines 63-153): the one-time insufficiency notice, then
the hourly loop. The first component counts notices emitted; the second is
the state when the loop exits. -/
def solveProblems (next : ManagerState → ManagerState) (simMax fuel : Nat)
    (st : ManagerState) : Nat × ManagerState :=
  (unwinnableNotices st.regions, policyLoop next simMax fuel st)

end Orchestration

section Samples

/-- Sample region: positive safe surplus (`2/5`). -/
def regNorth0 : Region := ⟨"North", 1, 0.5, 2⟩

/-- Sample region: deficit `7/10`, headroom `9/10`. -/
def regSouth0 : Region := ⟨"South", 0.1, 0.8, 1⟩

/-- Sample region: same numbers as `regSouth0`, named "East". -/
def regEast0 : Region := ⟨"East", 0.1, 0.8, 1⟩

/-- Sample region already at capacity. -/
def regAtCap : Region := ⟨"South", 1, 0.8, 1⟩

/-- Sample canal for role A. -/
def canalA0 : Canal := ⟨"A", 0, false⟩

/-- Sample canal for role B. -/
def canalB0 : Canal := ⟨"B", 0, false⟩

/-- Sample canal for role C. -/
def canalC0 : Canal := ⟨"C", 0, false⟩

/-- Sample canal for role D. -/
def canalD0 : Canal := ⟨"D", 0, false⟩

/-- Sample canal in an open, flowing state. -/
def canalOpen0 : Canal := ⟨"B", 0.7, true⟩

end Samples

/-- Safe surplus is never negative. -/
theorem computeSafeSurplus_nonneg (r : Option Region) : 0 ≤ computeSafeSurplus r := by
  cases r with
  | none => exact le_refl 0
  | some r =>
    simp only [computeSafeSurplus]
    split_ifs with h1 h2
    · exact le_refl 0
    · exact le_refl 0
    · linarith [lt_of_not_le h2]

/-- Deficit is never negative. -/
theorem computeDeficit_nonneg (r : Option Region) : 0 ≤ computeDeficit r := by
  cases r with
  | none => exact le_refl 0
  | some r =>
    simp only [computeDeficit]
    split_ifs with h
    · exact le_refl 0
    · linarith [lt_of_not_le h]

/-- A region strictly below its need has zero safe surplus. -/
theorem computeSafeSurplus_eq_zero_of_lt_need (r : Region)
    (h : r.waterLevel < r.waterNeed) : computeSafeSurplus (some r) = 0 := by
  simp only [computeSafeSurplus]
  split_ifs with h1 h2
  · rfl
  · rfl
  · exact absurd (le_trans h.le (le_max_right _ _)) h2

/-- **C3.** `computeSafeSurplus` returns `0` when
`waterLevel ≤ max(max(0.8*waterNeed, 0.3*waterCapacity), waterNeed)` and
`waterLevel` minus that keep level otherwise; the result is never negative,
and a null region yields `0`. -/
theorem computeSafeSurplus_spec :
    (∀ r : Region,
        computeSafeSurplus (some r) =
          (if r.waterLevel ≤ max (max (0.8 * r.waterNeed) (0.3 * r.waterCapacity)) r.waterNeed
           then 0
           else r.waterLevel -
             max (max (0.8 * r.waterNeed) (0.3 * r.waterCapacity)) r.waterNeed) ∧
        0 ≤ computeSafeSurplus (some r)) ∧
    computeSafeSurplus none = 0 := by
  refine ⟨fun r => ⟨?_, ?_⟩, rfl⟩
  · simp only [computeSafeSurplus]
    split_ifs with h1 h2 h3 <;> try rfl
    · exact absurd (le_trans h1 (le_max_left _ r.waterNeed)) h2
  · exact computeSafeSurplus_nonneg (some r)

/-- **C4.** `computeDeficit` returns `0` when `waterLevel ≥ waterNeed` and
`waterNeed − waterLevel` otherwise; the result is never negative, and a null
region yields `0`. -/
theorem computeDeficit_spec :
    (∀ r : Region,
        computeDeficit (some r) =
          (if r.waterNeed ≤ r.waterLevel then 0 else r.waterNeed - r.waterLevel) ∧
        0 ≤ computeDeficit (some r)) ∧
    computeDeficit none = 0 := by
  exact ⟨fun r => ⟨rfl, computeDeficit_nonneg (some r)⟩, rfl⟩

/-- **C9.** No region is simultaneously a giver and a receiver: for every
region, `min (computeSafeSurplus r) (computeDeficit r) = 0`. -/
theorem surplus_deficit_never_both (r : Region) :
    min (computeSafeSurplus (some r)) (computeDeficit (some r)) = 0 := by
  rcases lt_or_le r.waterLevel r.waterNeed with h | h
  · rw [computeSafeSurplus_eq_zero_of_lt_need r h]
    exact min_eq_left (computeDeficit_nonneg (some r))
  · have hd : computeDeficit (some r) = 0 := by
      simp only [computeDeficit, if_pos h]
    rw [hd]
    exact min_eq_right (computeSafeSurplus_nonneg (some r))

/-- The canal that the assign-with-overwrite loop leaves in a slot: the last
element of the list whose key is `k`, if any. -/
def lastMatch (k : CanalRole) : List Canal → Option Canal
  | [] => none
  | c :: rest =>
    Option.or (lastMatch k rest) (if canalKey c = some k then some c else none)

/-- If no element of the list has key `k`, `lastMatch` finds nothing. -/
theorem lastMatch_eq_none (k : CanalRole) (l : List Canal)
    (h : ∀ x ∈ l, canalKey x ≠ some k) : lastMatch k l = none := by
  induction l with
  | nil => rfl
  | cons c rest ih =>
    simp only [lastMatch]
    rw [ih fun x hx => h x (List.mem_cons_of_mem c hx),
      if_neg (h c (List.mem_cons_self c rest))]
    rfl

/-- If `ca` is the unique element of `l` with key `k`, `lastMatch` finds it. -/
theorem lastMatch_eq_of_unique (k : CanalRole) (ca : Canal) (l : List Canal)
    (hmem : ca ∈ l) (hkey : canalKey ca = some k)
    (huniq : ∀ x ∈ l, canalKey x = some k → x = ca) :
    lastMatch k l = some ca := by
  induction l with
  | nil => cases hmem
  | cons c rest ih =>
    simp only [lastMatch]
    by_cases hr : ca ∈ rest
    · rw [ih hr fun x hx hkx => huniq x (List.mem_cons_of_mem c hx) hkx]
      rfl
    · have hc : c = ca := by
        rcases List.mem_cons.mp hmem with h | h
        · exact h.symm
        · exact absurd h hr
      subst hc
      have hnone : ∀ x ∈ rest, canalKey x ≠ some k := fun x hx hkx =>
        hr ((huniq x (List.mem_cons_of_mem c hx) hkx) ▸ hx)
      rw [lastMatch_eq_none k rest hnone, if_pos hkey]
      rfl

/-- The A slot of the resolution fold is the last A-keyed canal (or the
accumulator's slot if no canal is A-keyed). -/
theorem foldl_resolveStep_canalA (canals : List Canal) (acc : ResolvedCanals) :
    (canals.foldl resolveStep acc).canalA =
      Option.or (lastMatch CanalRole.A canals) acc.canalA := by
  induction canals generalizing acc with
  | nil => rfl
  | cons c rest ih =>
    simp only [List.foldl_cons, lastMatch]
    rw [ih, Option.or_assoc]
    congr 1
    cases hk : canalKey c with
    | none => simp [resolveStep, hk]
    | some k => cases k <;> simp [resolveStep, hk]

/-- Same as `foldl_resolveStep_canalA` for the B slot. -/
theorem foldl_resolveStep_canalB (canals : List Canal) (acc : ResolvedCanals) :
    (canals.foldl resolveStep acc).canalB =
      Option.or (lastMatch CanalRole.B canals) acc.canalB := by
  induction canals generalizing acc with
  | nil => rfl
  | cons c rest ih =>
    simp only [List.foldl_cons, lastMatch]
    rw [ih, Option.or_assoc]
    congr 1
    cases hk : canalKey c with
    | none => simp [resolveStep, hk]
    | some k => cases k <;> simp [resolveStep, hk]

/-- Same as `foldl_resolveStep_canalA` for the C slot. -/
theorem foldl_resolveStep_canalC (canals : List Canal) (acc : ResolvedCanals) :
    (canals.foldl resolveStep acc).canalC =
      Option.or (lastMatch CanalRole.C canals) acc.canalC := by
  induction canals generalizing acc with
  | nil => rfl
  | cons c rest ih =>
    simp only [List.foldl_cons, lastMatch]
    rw [ih, Option.or_assoc]
    congr 1
    cases hk : canalKey c with
    | none => simp [resolveStep, hk]
    | some k => cases k <;> simp [resolveStep, hk]

/-- Same as `foldl_resolveStep_canalA` for the D slot. -/
theorem foldl_resolveStep_canalD (canals : List Canal) (acc : ResolvedCanals) :
    (canals.foldl resolveStep acc).canalD =
      Option.or (lastMatch CanalRole.D canals) acc.canalD := by
  induction canals generalizing acc with
  | nil => rfl
  | cons c rest ih =>
    simp only [List.foldl_cons, lastMatch]
    rw [ih, Option.or_assoc]
    congr 1
    cases hk : canalKey c with
    | none => simp [resolveStep, hk]
    | some k => cases k <;> simp [resolveStep, hk]

/-- **C1.** Topology resolution is by stable name lookup, not position: for
every ordering of a canal collection holding the four canals of the fixed
topology (one canal per role key under the source's substring chain), the
resolution loop assigns each role slot its correct canal.
The engine's canal naming lives in `acequia_manager.h`, which is not part of
this repository's sources; following the spec, each canal's name is assumed
to identify exactly its own role key. -/
theorem canal_resolution_order_independent (ca cb cc cd : Canal) (canals : List Canal)
    (hA : canalKey ca = some CanalRole.A) (hB : canalKey cb = some CanalRole.B)
    (hC : canalKey cc = some CanalRole.C) (hD : canalKey cd = some CanalRole.D)
    (hperm : canals.Perm [ca, cb, cc, cd]) :
    resolveCanals canals = ⟨some ca, some cb, some cc, some cd⟩ := by
  have hmem : ∀ x ∈ canals, x = ca ∨ x = cb ∨ x = cc ∨ x = cd := by
    intro x hx
    have hx4 := hperm.mem_iff.mp hx
    simpa using hx4
  have hmemA : ca ∈ canals := hperm.mem_iff.mpr (by simp)
  have hmemB : cb ∈ canals := hperm.mem_iff.mpr (by simp)
  have hmemC : cc ∈ canals := hperm.mem_iff.mpr (by simp)
  have hmemD : cd ∈ canals := hperm.mem_iff.mpr (by simp)
  have huA : ∀ x ∈ canals, canalKey x = some CanalRole.A → x = ca := by
    intro x hx hkx
    rcases hmem x hx with h | h | h | h <;> subst h
    · rfl
    · rw [hB] at hkx
      exact absurd hkx (by decide)
    · rw [hC] at hkx
      exact absurd hkx (by decide)
    · rw [hD] at hkx
      exact absurd hkx (by decide)
  have huB : ∀ x ∈ canals, canalKey x = some CanalRole.B → x = cb := by
    intro x hx hkx
    rcases hmem x hx with h | h | h | h <;> subst h
    · rw [hA] at hkx
      exact absurd hkx (by decide)
    · rfl
    · rw [hC] at hkx
      exact absurd hkx (by decide)
    · rw [hD] at hkx
      exact absurd hkx (by decide)
  have huC : ∀ x ∈ canals, canalKey x = some CanalRole.C → x = cc := by
    intro x hx hkx
    rcases hmem x hx with h | h | h | h <;> subst h
    · rw [hA] at hkx
      exact absurd hkx (by decide)
    · rw [hB] at hkx
      exact absurd hkx (by decide)
    · rfl
    · rw [hD] at hkx
      exact absurd hkx (by decide)
  have huD : ∀ x ∈ canals, canalKey x = some CanalRole.D → x = cd := by
    intro x hx hkx
    rcases hmem x hx with h | h | h | h <;> subst h
    · rw [hA] at hkx
      exact absurd hkx (by decide)
    · rw [hB] at hkx
      exact absurd hkx (by decide)
    · rw [hC] at hkx
      exact absurd hkx (by decide)
    · rfl
  have eA : (resolveCanals canals).canalA = some ca := by
    rw [resolveCanals, foldl_resolveStep_canalA,
      lastMatch_eq_of_unique CanalRole.A ca canals hmemA hA huA]
    rfl
  have eB : (resolveCanals canals).canalB = some cb := by
    rw [resolveCanals, foldl_resolveStep_canalB,
      lastMatch_eq_of_unique CanalRole.B cb canals hmemB hB huB]
    rfl
  have eC : (resolveCanals canals).canalC = some cc := by
    rw [resolveCanals, foldl_resolveStep_canalC,
      lastMatch_eq_of_unique CanalRole.C cc canals hmemC hC huC]
    rfl
  have eD : (resolveCanals canals).canalD = some cd := by
    rw [resolveCanals, foldl_resolveStep_canalD,
      lastMatch_eq_of_unique CanalRole.D cd canals hmemD hD huD]
    rfl
  calc resolveCanals canals
      = ⟨(resolveCanals canals).canalA, (resolveCanals canals).canalB,
         (resolveCanals canals).canalC, (resolveCanals canals).canalD⟩ := rfl
    _ = ⟨some ca, some cb, some cc, some cd⟩ := by rw [eA, eB, eC, eD]

/-- Witness for **C1**: a shuffled ordering of four concretely named canals
resolves every role to its correct canal. -/
theorem canal_resolution_order_independent_witness :
    resolveCanals [canalD0, canalB0, canalA0, canalC0] =
      ⟨some canalA0, some canalB0, some canalC0, some canalD0⟩ :=
  canal_resolution_order_independent canalA0 canalB0 canalC0 canalD0
    [canalD0, canalB0, canalA0, canalC0]
    (by with_unfolding_all decide) (by with_unfolding_all decide)
    (by with_unfolding_all decide) (by with_unfolding_all decide)
    (by with_unfolding_all decide)

/-- **C2.** Every amount the pairwise evaluator schedules is bounded by the
destination deficit, the source safe surplus, and 0.8 times the destination's
headroom; and when the destination is at or over capacity, or deficit or
surplus is non-positive, no transfer is scheduled and the canal is left as it
was (closed, after the hourly reset). -/
theorem tryTransfer_bounds (src dst : Region) (c : Canal) :
    (∀ a : ℚ, tryTransferAmount (some src) (some dst) = some a →
        a ≤ computeDeficit (some dst) ∧ a ≤ computeSafeSurplus (some src) ∧
        a ≤ 0.8 * (dst.waterCapacity - dst.waterLevel)) ∧
    (dst.waterCapacity ≤ dst.waterLevel ∨ computeDeficit (some dst) ≤ 0 ∨
        computeSafeSurplus (some src) ≤ 0 →
      tryTransferAmount (some src) (some dst) = none ∧
        tryTransfer (some src) (some dst) c = c) := by
  constructor
  · intro a ha
    simp only [tryTransferAmount] at ha
    split_ifs at ha with h1 h2 h3
    have hval := Option.some.inj ha
    refine ⟨?_, ?_, ?_⟩ <;>
        linarith [min_le_left (min (computeDeficit (some dst)) (computeSafeSurplus (some src)))
            ((dst.waterCapacity - dst.waterLevel) * 0.8),
          min_le_right (min (computeDeficit (some dst)) (computeSafeSurplus (some src)))
            ((dst.waterCapacity - dst.waterLevel) * 0.8),
          min_le_left (computeDeficit (some dst)) (computeSafeSurplus (some src)),
          min_le_right (computeDeficit (some dst)) (computeSafeSurplus (some src))]
  · intro h
    have hnone : tryTransferAmount (some src) (some dst) = none := by
      simp only [tryTransferAmount]
      rcases h with h | h | h
      · split_ifs with h1 h2 h3
        · rfl
        · rfl
        · rfl
        · exact absurd (show dst.waterCapacity - dst.waterLevel ≤ 0 by linarith) h2
      · split_ifs with h1 h2 h3
        · rfl
        · rfl
        · rfl
        · exact absurd (Or.inl h) h1
      · split_ifs with h1 h2 h3
        · rfl
        · rfl
        · rfl
        · exact absurd (Or.inr h) h1
    exact ⟨hnone, by simp only [tryTransfer, hnone]⟩

/-- Witness for **C2**: the North/South sample schedules `2/5`, within all
three bounds; with an at-capacity destination nothing is scheduled and the
canal is untouched. -/
theorem tryTransfer_bounds_witness :
    ((2/5 : ℚ) ≤ computeDeficit (some regSouth0) ∧
      (2/5 : ℚ) ≤ computeSafeSurplus (some regNorth0) ∧
      (2/5 : ℚ) ≤ 0.8 * (regSouth0.waterCapacity - regSouth0.waterLevel)) ∧
    (tryTransferAmount (some regNorth0) (some regAtCap) = none ∧
      tryTransfer (some regNorth0) (some regAtCap) canalOpen0 = canalOpen0) :=
  ⟨(tryTransfer_bounds regNorth0 regSouth0 canalOpen0).1 (2/5) (by with_unfolding_all decide),
   (tryTransfer_bounds regNorth0 regAtCap canalOpen0).2
     (Or.inl (by with_unfolding_all decide))⟩

/-- **C5.** The flow-rate converter: an amount in `(0, 3.6]` sets the rate to
exactly `amount/3.6` (which is at most `1`) and opens the gate; an amount
above `3.6` clamps the rate to `1` and opens the gate; a non-positive amount
leaves the canal untouched. -/
theorem scheduleTransfer_spec (c : Canal) (a : ℚ) :
    (0 < a → a ≤ 3.6 →
      scheduleTransfer c a = { c with flowRate := a / 3.6, isOpen := true } ∧ a / 3.6 ≤ 1) ∧
    (3.6 < a → scheduleTransfer c a = { c with flowRate := 1, isOpen := true }) ∧
    (a ≤ 0 → scheduleTransfer c a = c) := by
  refine ⟨fun h1 h2 => ?_, fun h => ?_, fun h => ?_⟩
  · have hle : a / 3.6 ≤ 1 := by
      rw [div_le_one (show (0:ℚ) < 3.6 by norm_num)]
      exact h2
    have hpos : 0 < a / 3.6 := div_pos h1 (by norm_num)
    refine ⟨?_, hle⟩
    simp only [scheduleTransfer]
    split_ifs with g1 g2 g3 g4 <;> first
      | rfl
      | (exfalso; linarith)
  · have h36 : (1:ℚ) < a / 3.6 := by
      rw [lt_div_iff₀ (show (0:ℚ) < 3.6 by norm_num)]
      linarith
    simp only [scheduleTransfer]
    split_ifs with g1 g2 <;> first
      | rfl
      | (exfalso; linarith)
  · simp only [scheduleTransfer]
    rw [if_pos h]

/-- Witness for **C5** at concrete amounts `9/5`, `36/5` and `-1`. -/
theorem scheduleTransfer_spec_witness :
    (scheduleTransfer canalA0 (9/5) = { canalA0 with flowRate := (9/5 : ℚ) / 3.6, isOpen := true } ∧
      (9/5 : ℚ) / 3.6 ≤ 1) ∧
    scheduleTransfer canalA0 (36/5) = { canalA0 with flowRate := 1, isOpen := true } ∧
    scheduleTransfer canalA0 (-1) = canalA0 :=
  ⟨(scheduleTransfer_spec canalA0 (9/5)).1 (by norm_num) (by norm_num),
   (scheduleTransfer_spec canalA0 (36/5)).2.1 (by norm_num),
   (scheduleTransfer_spec canalA0 (-1)).2.2 (by norm_num)⟩

/-- `scheduleTransfer` never touches the canal's name. -/
theorem scheduleTransfer_name (c : Canal) (a : ℚ) :
    (scheduleTransfer c a).name = c.name := by
  simp only [scheduleTransfer]
  split_ifs <;> rfl

/-- `tryTransfer` never touches the canal's name. -/
theorem tryTransfer_name (src dst : Option Region) (c : Canal) :
    (tryTransfer src dst c).name = c.name := by
  unfold tryTransfer
  cases h : tryTransferAmount src dst with
  | none => rfl
  | some a => exact scheduleTransfer_name c a

/-- A name-preserving canal mutation preserves the list of canal names. -/
theorem applyToCanal_names (canals : List Canal) (t : Option Canal) (f : Canal → Canal)
    (hf : ∀ c, (f c).name = c.name) :
    (applyToCanal canals t f).map Canal.name = canals.map Canal.name := by
  cases t with
  | none => rfl
  | some tc =>
    simp only [applyToCanal, List.map_map]
    apply List.map_congr_left
    intro c _
    by_cases h : c = tc
    · simp [h, hf]
    · simp [h]

/-- The hourly reset preserves the list of canal names. -/
theorem closeAllCanals_names (canals : List Canal) :
    (closeAllCanals canals).map Canal.name = canals.map Canal.name := by
  simp only [closeAllCanals, List.map_map]
  exact List.map_congr_left fun c _ => rfl

/-- The decision pass leaves the hour counter alone. -/
theorem decisionPass_hour (st : ManagerState) : (decisionPass st).hour = st.hour := rfl

/-- The decision pass leaves the region collection alone. -/
theorem decisionPass_regions (st : ManagerState) :
    (decisionPass st).regions = st.regions := rfl

/-- **C7.** The decision pass mutates only canal flow-rate and gate state: the
region collection, the solved flag and the hour are untouched, no canal is
created, destroyed or renamed, and the pass equals its snapshot reading, in
which all four transfer attempts are evaluated against the start-of-hour
region state. -/
theorem decisionPass_frame (st : ManagerState) :
    (decisionPass st).regions = st.regions ∧
    (decisionPass st).isSolved = st.isSolved ∧
    (decisionPass st).hour = st.hour ∧
    (decisionPass st).canals.map Canal.name = st.canals.map Canal.name ∧
    decisionPass st = decisionPassSnapshot st := by
  refine ⟨rfl, rfl, rfl, ?_, rfl⟩
  have hc : (decisionPass st).canals =
      applyToCanal
        (applyToCanal
          (applyToCanal
            (applyToCanal (closeAllCanals st.canals)
              (resolveCanals (closeAllCanals st.canals)).canalA
              (tryTransfer (northOf st.regions) (southOf st.regions)))
            (resolveCanals (closeAllCanals st.canals)).canalC
            (tryTransfer (northOf st.regions) (eastOf st.regions)))
          (resolveCanals (closeAllCanals st.canals)).canalB
          (tryTransfer (southOf st.regions) (eastOf st.regions)))
        (resolveCanals (closeAllCanals st.canals)).canalD
        (tryTransfer (eastOf st.regions) (northOf st.regions)) := rfl
  rw [hc, applyToCanal_names _ _ _ (tryTransfer_name _ _),
    applyToCanal_names _ _ _ (tryTransfer_name _ _),
    applyToCanal_names _ _ _ (tryTransfer_name _ _),
    applyToCanal_names _ _ _ (tryTransfer_name _ _),
    closeAllCanals_names]

/-- The hourly loop always exits with the scenario solved or the hour limit
reached, provided the engine advances the hour by one per call and the fuel
covers the remaining hours. -/
theorem policyLoop_exit (next : ManagerState → ManagerState) (simMax : Nat)
    (hnext : ∀ s, (next s).hour = s.hour + 1) :
    ∀ fuel st, st.hour ≤ simMax → simMax - st.hour ≤ fuel →
      (policyLoop next simMax fuel st).isSolved = true ∨
      (policyLoop next simMax fuel st).hour = simMax := by
  intro fuel
  induction fuel with
  | zero =>
    intro st hle hfuel
    right
    show st.hour = simMax
    omega
  | succ n ih =>
    intro st hle hfuel
    by_cases hsol : st.isSolved
    · have hcond : (!st.isSolved && st.hour != simMax) = false := by simp [hsol]
      simp only [policyLoop, hcond, Bool.false_eq_true, if_false]
      exact Or.inl hsol
    · by_cases hh : st.hour = simMax
      · have hcond : (!st.isSolved && st.hour != simMax) = false := by simp [hh]
        simp only [policyLoop, hcond, Bool.false_eq_true, if_false]
        exact Or.inr hh
      · have hcond : (!st.isSolved && st.hour != simMax) = true := by
          simp [hsol, hh]
        simp only [policyLoop, hcond, if_true]
        have hhour : (next (decisionPass st)).hour = st.hour + 1 := by
          rw [hnext, decisionPass_hour]
        exact ih (next (decisionPass st)) (by omega) (by omega)

/-- **C6.** The insufficiency check runs once, at policy start: the notice
count is one exactly when the initial total water is below the initial total
need (zero otherwise), the loop's result does not depend on the notice, and
the loop still runs until the engine reports solved or the hour limit is
reached. -/
theorem solveProblems_notice_and_loop (next : ManagerState → ManagerState)
    (simMax fuel : Nat) (st : ManagerState)
    (hnext : ∀ s, (next s).hour = s.hour + 1)
    (hle : st.hour ≤ simMax) (hfuel : simMax - st.hour ≤ fuel) :
    (solveProblems next simMax fuel st).1 =
      (if totalWater st.regions < totalNeed st.regions then 1 else 0) ∧
    (solveProblems next simMax fuel st).2 = policyLoop next simMax fuel st ∧
    ((policyLoop next simMax fuel st).isSolved = true ∨
      (policyLoop next simMax fuel st).hour = simMax) :=
  ⟨rfl, rfl, policyLoop_exit next simMax hnext fuel st hle hfuel⟩

/-- A sample engine `nexthour`: advances the hour, leaves the rest alone. -/
def nextW : ManagerState → ManagerState := fun s => { s with hour := s.hour + 1 }

/-- A sample initial manager state whose total water (`11/10`) is below its
total need (`13/10`). -/
def stW : ManagerState := ⟨[regNorth0, regSouth0], [canalA0], false, 0⟩

/-- Witness for **C6**: on the sample scenario the notice fires exactly once
and the loop exits at the hour limit. -/
theorem solveProblems_notice_and_loop_witness :
    ((solveProblems nextW 2 2 stW).1 =
        (if totalWater stW.regions < totalNeed stW.regions then 1 else 0) ∧
      (solveProblems nextW 2 2 stW).2 = policyLoop nextW 2 2 stW ∧
      ((policyLoop nextW 2 2 stW).isSolved = true ∨
        (policyLoop nextW 2 2 stW).hour = 2)) ∧
    (solveProblems nextW 2 2 stW).1 = 1 :=
  ⟨solveProblems_notice_and_loop nextW 2 2 stW (fun s => rfl)
     (by with_unfolding_all decide) (by with_unfolding_all decide),
   by with_unfolding_all decide⟩

/-- **C10.** The safe-surplus bound is per pair, not aggregate: on a concrete
state, North's two outgoing attempts are each granted the full surplus `2/5`,
so the total scheduled out of North (`4/5`) strictly exceeds its surplus. -/
theorem aggregate_exceeds_surplus :
    tryTransferAmount (some regNorth0) (some regSouth0) = some (2/5) ∧
    tryTransferAmount (some regNorth0) (some regEast0) = some (2/5) ∧
    computeSafeSurplus (some regNorth0) = 2/5 ∧
    computeSafeSurplus (some regNorth0) < 2/5 + 2/5 := by
  with_unfolding_all decide

/-- Witness for **C9** at a concrete region. -/
theorem surplus_deficit_never_both_witness :
    min (computeSafeSurplus (some regNorth0)) (computeDeficit (some regNorth0)) = 0 :=
  surplus_deficit_never_both regNorth0

/-- **C8.** The canal reset is idempotent — applying it twice to any canal
collection equals applying it once — and every canal it yields is closed with
zero flow-rate. -/
theorem closeAllCanals_idempotent (canals : List Canal) :
    closeAllCanals (closeAllCanals canals) = closeAllCanals canals ∧
    ∀ c ∈ closeAllCanals canals, c.flowRate = 0 ∧ c.isOpen = false := by
  constructor
  · simp only [closeAllCanals, List.map_map]
    rfl
  · intro c hc
    rcases List.mem_map.mp hc with ⟨d, _, rfl⟩
    exact ⟨rfl, rfl⟩

/-- Witness for **C8** on a concrete one-canal collection in an open state. -/
theorem closeAllCanals_idempotent_witness :
    closeAllCanals (closeAllCanals [canalOpen0]) = closeAllCanals [canalOpen0] ∧
    (Canal.mk "B" 0 false).flowRate = 0 ∧ (Canal.mk "B" 0 false).isOpen = false :=
  ⟨(closeAllCanals_idempotent [canalOpen0]).1,
   (closeAllCanals_idempotent [canalOpen0]).2 (Canal.mk "B" 0 false)
     (by with_unfolding_all decide)⟩
